import Mathlib

/-!
Verification of the FHIRfly terminology SDK request-execution core.

The definitions below are a shallow embedding of `src/http.ts`,
`src/client.ts` and `src/errors.ts`:

* `ReqError` mirrors the error classes of `errors.ts` (structured fields
  kept where a claim consults them; human-readable messages elided).
* `parseErrorResponse` mirrors `HttpClient.parseErrorResponse` (the
  endpoint-path parsing inside the 404 branch is elided since no claim
  consults the parsed identifier).
* `requestAux` mirrors the retry loop of `HttpClient.request`.  The
  network is modelled by a script: a list of per-attempt results, one
  consumed per issued attempt.  Alongside the outcome we return a
  `Trace` recording the observable effects (number of attempts issued,
  the sleep durations in milliseconds in order, and the number of
  `TokenManager.invalidate` calls).
* `TokenManager` becomes an explicit state machine (`TMState`,
  `getTokenStep`, `fetchSettle`): the single-threaded event loop means a
  burst of concurrent `getToken()` calls executes the synchronous prefix
  of each call in sequence, which `concurrentCalls` models.
* `fhirflyNew` mirrors the runtime credential dispatch of the `Fhirfly`
  constructor, including JavaScript truthiness of the string fields.
* `buildSearchQueryString` mirrors `HttpClient.buildSearchQueryString`
  over `URLSearchParams` (modelled by `spSet` / `spToString` with the
  WHATWG application/x-www-form-urlencoded serializer `formEncode`).
-/

namespace FhirflySDK

/-- Client configuration resolved in the `HttpClient` constructor
(`timeout ?? 30000`, `maxRetries ?? 3`, `retryDelay ?? 1000`); the
`baseUrl` and `userAgent` strings play no role in any claim about the
retry loop and are carried by the header model separately. -/
structure Config where
  maxRetries : Nat
  retryDelay : Nat
  timeout : Nat
  authIsOAuth : Bool
  deriving DecidableEq, Repr

/-- Result of one network attempt, as observed by the `try` block of
`HttpClient.request`: a response (status, the `retry-after`,
`x-ratelimit-limit`, `x-ratelimit-remaining`, `x-ratelimit-reset`
headers, and the body discriminator `body.code`), an abort fired by the
timeout timer, or a transport-level exception. -/
inductive NetResult where
  | response (status : Nat) (retryAfter lim remaining reset : Option Nat)
      (bodyCode : Option String)
  | abortErr
  | netErr
  deriving DecidableEq, Repr

/-- The error classes of `errors.ts`.  `api` is the base `ApiError`
thrown by the default branch of `parseErrorResponse`;
`authentication`, `notFound`, `validation`, `rateLimit`,
`quotaExceeded`, `server` are its subclasses, and `network`, `timeout`
derive from `FhirflyError` directly.  Message strings and the 404
identifier fields are elided (no claim consults them). -/
inductive ReqError where
  | authentication
  | notFound
  | validation
  | rateLimit (retryAfter lim remaining reset : Option Nat)
  | quotaExceeded
  | server (status : Nat)
  | api (status : Nat)
  | network
  | timeout (ms : Nat)
  deriving DecidableEq, Repr

/-- Outcome of a logical call: resolve with the 2xx status or fail with
one structured error. -/
inductive ReqOutcome where
  | success (status : Nat)
  | failure (e : ReqError)
  deriving DecidableEq, Repr

/-- Observable side effects of a logical call: number of network
attempts issued, sleep durations (ms, in order), number of
`TokenManager.invalidate` calls. -/
structure Trace where
  attempts : Nat
  sleeps : List Nat
  invalidates : Nat
  deriving DecidableEq, Repr

/-- Model of `HttpClient.parseErrorResponse`: map a non-2xx response to a
structured error by status, with the 429 quota discriminator
`body.code === "QUOTA_EXCEEDED"`. -/
def parseErrorResponse (status : Nat) (retryAfter lim remaining reset : Option Nat)
    (bodyCode : Option String) : ReqError :=
  if status = 401 then ReqError.authentication
  else if status = 404 then ReqError.notFound
  else if status = 400 then ReqError.validation
  else if status = 429 then
    if bodyCode = some "QUOTA_EXCEEDED" then ReqError.quotaExceeded
    else ReqError.rateLimit retryAfter lim remaining reset
  else if 500 ≤ status then ReqError.server status
  else ReqError.api status

/-- The retry loop of `HttpClient.request`.  `isRetryAfter401` is the
flag of the same name; `attempt` is the loop counter.  The script lists
the network result of each attempt in order; the `[]` case corresponds
to the post-loop `throw new NetworkError("Request failed after
retries")` (reached in the model only when the script is shorter than
the attempts the code would issue).  A 401 under OAuth with the flag
unset invalidates the token and re-issues the whole logical call with
the flag set (`return this.request(method, endpoint, body, true)`),
which restarts the loop counter at 0. -/
def requestAux (cfg : Config) (isRetryAfter401 : Bool) (attempt : Nat) :
    List NetResult → ReqOutcome × Trace
  | [] => (ReqOutcome.failure ReqError.network, Trace.mk 0 [] 0)
  | NetResult.abortErr :: _ =>
      (ReqOutcome.failure (ReqError.timeout cfg.timeout), Trace.mk 1 [] 0)
  | NetResult.netErr :: rest =>
      if attempt < cfg.maxRetries then
        let r := requestAux cfg isRetryAfter401 (attempt + 1) rest
        (r.1, Trace.mk (r.2.attempts + 1) (cfg.retryDelay * 2 ^ attempt :: r.2.sleeps)
          r.2.invalidates)
      else (ReqOutcome.failure ReqError.network, Trace.mk 1 [] 0)
  | NetResult.response status ra lim rem rst code :: rest =>
      if 200 ≤ status ∧ status < 300 then
        (ReqOutcome.success status, Trace.mk 1 [] 0)
      else if status = 401 ∧ cfg.authIsOAuth = true ∧ isRetryAfter401 = false then
        let r := requestAux cfg true 0 rest
        (r.1, Trace.mk (r.2.attempts + 1) r.2.sleeps (r.2.invalidates + 1))
      else if status < 500 ∧ status ≠ 429 then
        (ReqOutcome.failure (parseErrorResponse status ra lim rem rst code), Trace.mk 1 [] 0)
      else if status = 429 then
        match ra with
        | some secs =>
            if attempt < cfg.maxRetries then
              let r := requestAux cfg isRetryAfter401 (attempt + 1) rest
              (r.1, Trace.mk (r.2.attempts + 1) (secs * 1000 :: r.2.sleeps) r.2.invalidates)
            else
              (ReqOutcome.failure (parseErrorResponse status ra lim rem rst code),
               Trace.mk 1 [] 0)
        | none =>
            (ReqOutcome.failure (parseErrorResponse status ra lim rem rst code),
             Trace.mk 1 [] 0)
      else
        if attempt < cfg.maxRetries then
          let r := requestAux cfg isRetryAfter401 (attempt + 1) rest
          (r.1, Trace.mk (r.2.attempts + 1) (cfg.retryDelay * 2 ^ attempt :: r.2.sleeps)
            r.2.invalidates)
        else
          (ReqOutcome.failure (parseErrorResponse status ra lim rem rst code),
           Trace.mk 1 [] 0)

/-- State of a `TokenManager` instance: `accessToken` (`null` = `none`),
`expiresAt` (milliseconds since epoch, `0` initially), and whether
`refreshPromise` is non-null. -/
structure TMState where
  accessToken : Option String
  expiresAt : Int
  refreshInFlight : Bool
  deriving DecidableEq, Repr

/-- What one `getToken()` call does in its synchronous prefix. -/
inductive GetTokenAction where
  | cachedHit (token : String)
  | awaitExisting
  | startFetch
  deriving DecidableEq, Repr

/-- JavaScript truthiness of `this.accessToken` (a `string | null`):
`null` and the empty string are falsy. -/
def tokenTruthy : Option String → Bool
  | none => false
  | some s => if s = "" then false else true

/-- The synchronous prefix of `TokenManager.getToken()` at wall-clock
time `now`: return the cached token if it is truthy and unexpired;
otherwise await the in-flight `refreshPromise` if one exists; otherwise
install a new `refreshPromise` (the in-flight marker) and start the
network exchange. -/
def getTokenStep (st : TMState) (now : Int) : GetTokenAction × TMState :=
  if tokenTruthy st.accessToken = true ∧ now < st.expiresAt then
    (GetTokenAction.cachedHit (st.accessToken.getD ""), st)
  else if st.refreshInFlight = true then
    (GetTokenAction.awaitExisting, st)
  else
    (GetTokenAction.startFetch, TMState.mk st.accessToken st.expiresAt true)

/-- Settlement of the token exchange started by `fetchToken`, as a
state update at time `now`: on success (token and `expires_in` seconds)
store the token and `expiresAt = now + (expires_in - 60) * 1000`; on a
non-2xx status the `AuthenticationError` leaves the cache untouched.
In both cases the `finally` block clears `refreshPromise`. -/
def fetchSettle (st : TMState) (now : Int) (result : Except Nat (String × Int)) : TMState :=
  match result with
  | Except.ok tr => TMState.mk (some tr.1) (now + (tr.2 - 60) * 1000) false
  | Except.error _ => TMState.mk st.accessToken st.expiresAt false

/-- Model of `TokenManager.invalidate()`: clear the token and its expiry. -/
def invalidateTM (st : TMState) : TMState :=
  TMState.mk none 0 st.refreshInFlight

/-- N `getToken()` calls arriving before the exchange settles: on the
single-threaded event loop each runs its synchronous prefix in turn. -/
def concurrentCalls (st : TMState) (now : Int) : Nat → List GetTokenAction × TMState
  | 0 => ([], st)
  | n + 1 =>
      let p := getTokenStep st now
      let q := concurrentCalls p.2 now n
      (p.1 :: q.1, q.2)

/-- The value a caller eventually receives: a cached hit resolves with
the cached token; every caller awaiting the (single) refresh promise
receives the settlement of that promise. -/
def callerResult (a : GetTokenAction) (settlement : Except Nat String) : Except Nat String :=
  match a with
  | GetTokenAction.cachedHit t => Except.ok t
  | GetTokenAction.awaitExisting => settlement
  | GetTokenAction.startFetch => settlement

/-- Number of network calls to the token endpoint issued by a list of
`getToken()` actions. -/
def countStartFetch (as : List GetTokenAction) : Nat :=
  (as.filter (fun a => a = GetTokenAction.startFetch)).length

/-- Runtime shape of the `Fhirfly` constructor argument.  Optional
string fields model both absence (`"apiKey" in config` false) and
present-but-falsy values. -/
structure FhirflyConfig where
  apiKey : Option String
  clientId : Option String
  clientSecret : Option String
  tokenUrl : Option String
  scopes : Option (List String)
  baseUrl : Option String
  deriving DecidableEq, Repr

/-- The authentication mode fixed at construction. -/
inductive ClientAuth where
  | apiKeyMode (key : String)
  | oauthMode (clientId clientSecret tokenUrl : String) (scopes : Option (List String))
  deriving DecidableEq, Repr

/-- JavaScript truthiness of an optional string field. -/
def jsTruthy : Option String → Bool
  | none => false
  | some s => if s = "" then false else true

/-- The credential dispatch of the `Fhirfly` constructor:
`"apiKey" in config && config.apiKey` selects api-key mode, else
`"clientId" in config && config.clientId && config.clientSecret`
selects OAuth mode with `tokenUrl ?? baseUrl + "/oauth2/token"`, else
`throw new Error(...)`. -/
def fhirflyNew (cfg : FhirflyConfig) : Except String ClientAuth :=
  let baseUrl := cfg.baseUrl.getD "https://api.fhirfly.io"
  if jsTruthy cfg.apiKey = true then
    Except.ok (ClientAuth.apiKeyMode (cfg.apiKey.getD ""))
  else if jsTruthy cfg.clientId = true ∧ jsTruthy cfg.clientSecret = true then
    Except.ok (ClientAuth.oauthMode (cfg.clientId.getD "") (cfg.clientSecret.getD "")
      (cfg.tokenUrl.getD (baseUrl ++ "/oauth2/token")) cfg.scopes)
  else
    Except.error
      "FHIRfly requires either an apiKey or clientId+clientSecret. Get credentials at https://fhirfly.io/dashboard"

/-- Auth mode as seen by `HttpClient.getAuthHeaders` for one attempt
(in OAuth mode the bearer token obtained from the token manager). -/
inductive AuthHeaderMode where
  | apiKeyAuth (key : String)
  | oauthAuth (token : String)
  deriving DecidableEq, Repr

/-- Model of `HttpClient.getAuthHeaders`: the single auth header for the
attempt. -/
def getAuthHeaders : AuthHeaderMode → List (String × String)
  | AuthHeaderMode.apiKeyAuth k => [("x-api-key", k)]
  | AuthHeaderMode.oauthAuth t => [("Authorization", "Bearer " ++ t)]

/-- The header object built in `HttpClient.request`:
`{...authHeaders, "Content-Type": ..., "User-Agent": ..., "Accept": ...}`
(spread first, then the three fixed headers, whose names are disjoint
from the auth header names). -/
def requestHeaders (auth : AuthHeaderMode) (userAgent : String) : List (String × String) :=
  getAuthHeaders auth ++
    [("Content-Type", "application/json"), ("User-Agent", userAgent),
     ("Accept", "application/json")]

/-- Number of authentication headers present in a header list. -/
def countAuthHeaders (hs : List (String × String)) : Nat :=
  (hs.filter (fun p => p.1 = "x-api-key" ∨ p.1 = "Authorization")).length

/-- JavaScript values that reach `buildSearchQueryString` through the
typed search-parameter records: the typed params are strings, numbers
(integers in every record), booleans and string arrays, plus
`undefined`/`null`.  Numbers are modelled as `Int` (matching
`Number.prototype.toString` on the integral values the records carry);
arrays as string lists (matching `Array.prototype.join` on them). -/
inductive JsValue where
  | undef
  | nullv
  | boolv (b : Bool)
  | numv (n : Int)
  | strv (s : String)
  | arrv (xs : List String)
  deriving DecidableEq, Repr

/-- Model of `Boolean.prototype.toString`. -/
def boolToString (b : Bool) : String :=
  if b then "true" else "false"

/-- Model of `URLSearchParams.set`: replace the value of the first entry with
this key and drop later duplicates, or append if the key is absent. -/
def spSet : List (String × String) → String → String → List (String × String)
  | [], k, v => [(k, v)]
  | p :: rest, k, v =>
      if p.1 = k then (k, v) :: rest.filter (fun q => !(q.1 = k : Bool))
      else p :: spSet rest k v

/-- UTF-8 encoding of a code point, as a list of byte values. -/
def utf8Bytes (n : Nat) : List Nat :=
  if n < 0x80 then [n]
  else if n < 0x800 then
    [0xC0 + n / 64, 0x80 + n % 64]
  else if n < 0x10000 then
    [0xE0 + n / 4096, 0x80 + n / 64 % 64, 0x80 + n % 64]
  else
    [0xF0 + n / 262144, 0x80 + n / 4096 % 64, 0x80 + n / 64 % 64, 0x80 + n % 64]

/-- Bytes the application/x-www-form-urlencoded serializer leaves
as-is: ASCII alphanumerics and `*`, `-`, `.`, `_`. -/
def isSafeByte (n : Nat) : Bool :=
  (0x30 ≤ n ∧ n ≤ 0x39) ∨ (0x41 ≤ n ∧ n ≤ 0x5A) ∨ (0x61 ≤ n ∧ n ≤ 0x7A) ∨
    n = 0x2A ∨ n = 0x2D ∨ n = 0x2E ∨ n = 0x5F

/-- Uppercase hexadecimal digit. -/
def hexDigit (n : Nat) : Char :=
  if n < 10 then Char.ofNat (0x30 + n) else Char.ofNat (0x37 + n)

/-- Serialize one byte: space becomes `+`, safe bytes stand for
themselves, everything else is percent-encoded. -/
def encodeByte (n : Nat) : String :=
  if n = 0x20 then "+"
  else if isSafeByte n = true then String.singleton (Char.ofNat n)
  else String.mk ['%', hexDigit (n / 16), hexDigit (n % 16)]

/-- The application/x-www-form-urlencoded serializer applied to one
string (as `URLSearchParams.toString` does to each name and value). -/
def formEncode (s : String) : String :=
  String.join (s.toList.map (fun c => String.join ((utf8Bytes c.toNat).map encodeByte)))

/-- Model of `URLSearchParams.toString`. -/
def spToString (ps : List (String × String)) : String :=
  String.intercalate "&" (ps.map (fun p => formEncode p.1 ++ "=" ++ formEncode p.2))

/-- One iteration of the `for (const [key, value] of
Object.entries(params))` loop in `HttpClient.buildSearchQueryString`. -/
def searchStep (acc : List (String × String)) (kv : String × JsValue) :
    List (String × String) :=
  match kv.2 with
  | JsValue.undef => acc
  | JsValue.nullv => acc
  | JsValue.boolv b => spSet acc kv.1 (boolToString b)
  | JsValue.numv n => spSet acc kv.1 (toString n)
  | JsValue.strv s => if 0 < s.length then spSet acc kv.1 s else acc
  | JsValue.arrv xs => if 0 < xs.length then spSet acc kv.1 (String.intercalate "," xs) else acc

/-- Model of `HttpClient.buildSearchQueryString`: fold the entries through
`URLSearchParams.set`, serialize, and prefix `?` unless empty. -/
def buildSearchQueryString (params : List (String × JsValue)) : String :=
  let qs := spToString (params.foldl searchStep [])
  if qs = "" then "" else "?" ++ qs

/-- Modelled from the spec side, for the refinement comparison of claim
C8 only: `undefined`/`null` omitted, booleans and numbers stringified,
empty strings omitted, non-empty arrays joined with commas, empty
arrays omitted. -/
def specStringify : JsValue → Option String
  | JsValue.undef => none
  | JsValue.nullv => none
  | JsValue.boolv b => some (boolToString b)
  | JsValue.numv n => some (toString n)
  | JsValue.strv s => if 0 < s.length then some s else none
  | JsValue.arrv xs => if 0 < xs.length then some (String.intercalate "," xs) else none

/-- Modelled from the spec side, for the refinement comparison of claim
C8 only: the surviving entries in the insertion order of the input map,
serialized. -/
def specSearchQuery (params : List (String × JsValue)) : String :=
  let qs := spToString (params.filterMap
    (fun kv => (specStringify kv.2).map (fun v => (kv.1, v))))
  if qs = "" then "" else "?" ++ qs

/-- Does `pat` occur as a contiguous run inside `s`? -/
def containsSeq (pat : List Char) : List Char → Bool
  | [] => pat.isEmpty
  | c :: rest => pat.isPrefixOf (c :: rest) || containsSeq pat rest

/-- Membership in the closed eight-kind error taxonomy of the spec
(section 7): every error class except the base `ApiError`. -/
def specClosedTaxonomy : ReqError → Bool
  | ReqError.api _ => false
  | _ => true

/-- The concrete search-parameter map of claim C8:
`{q: "test", ingredient: undefined, limit: 50, is_active: true}`. -/
def searchExample : List (String × JsValue) :=
  [("q", JsValue.strv "test"), ("ingredient", JsValue.undef),
   ("limit", JsValue.numv 50), ("is_active", JsValue.boolv true)]

end FhirflySDK

namespace FhirflySDK

/-- Claim C7: a network attempt that hits the configured timeout fails
the logical call with a `TimeoutError` carrying the configured timeout
duration, and is never retried — it is terminal regardless of the
remaining retry budget (any `attempt` counter, any remaining script). -/
theorem c7_timeout_terminal (cfg : Config) (flag : Bool) (att : Nat)
    (rest : List NetResult) :
    requestAux cfg flag att (NetResult.abortErr :: rest) =
      (ReqOutcome.failure (ReqError.timeout cfg.timeout), Trace.mk 1 [] 0) := rfl

/-- Claim C9: every request attempt carries exactly one authentication
header — `x-api-key` in api-key mode, `Authorization: Bearer <token>`
in OAuth mode, never both, never neither — together with the always
present `Content-Type: application/json`, `User-Agent` and
`Accept: application/json` headers. -/
theorem c9_exactly_one_auth_header (ua k t : String) :
    requestHeaders (AuthHeaderMode.apiKeyAuth k) ua =
      [("x-api-key", k), ("Content-Type", "application/json"), ("User-Agent", ua),
       ("Accept", "application/json")] ∧
    requestHeaders (AuthHeaderMode.oauthAuth t) ua =
      [("Authorization", "Bearer " ++ t), ("Content-Type", "application/json"),
       ("User-Agent", ua), ("Accept", "application/json")] ∧
    ∀ auth : AuthHeaderMode, countAuthHeaders (requestHeaders auth ua) = 1 := by
  refine ⟨rfl, rfl, ?_⟩
  intro auth
  cases auth <;> rfl

/-- Claim C2, counterexample: a mixed runtime configuration carrying an
`apiKey` and a `clientId`+`clientSecret` does not fail at construction —
the constructor selects api-key mode (the `apiKey` branch wins). -/
theorem c2_mixed_config_accepted :
    fhirflyNew (FhirflyConfig.mk (some "key") (some "cid") (some "secret")
        none none none) =
      Except.ok (ClientAuth.apiKeyMode "key") := rfl

/-- Claim C2 as amended: a truthy `apiKey` always selects api-key mode
(even if OAuth credentials are also supplied); otherwise truthy
`clientId` and `clientSecret` select OAuth mode with the defaulted
token URL; otherwise construction fails synchronously with the
descriptive error message.  Each successful construction fixes exactly
one authentication mode. -/
theorem c2_construction (cfg : FhirflyConfig) :
    (∀ k, cfg.apiKey = some k → ¬k = "" →
        fhirflyNew cfg = Except.ok (ClientAuth.apiKeyMode k)) ∧
    (∀ cid cs, jsTruthy cfg.apiKey = false → cfg.clientId = some cid → ¬cid = "" →
        cfg.clientSecret = some cs → ¬cs = "" →
        fhirflyNew cfg = Except.ok (ClientAuth.oauthMode cid cs
          (cfg.tokenUrl.getD ((cfg.baseUrl.getD "https://api.fhirfly.io") ++
            "/oauth2/token")) cfg.scopes)) ∧
    (jsTruthy cfg.apiKey = false →
        (jsTruthy cfg.clientId = false ∨ jsTruthy cfg.clientSecret = false) →
        fhirflyNew cfg = Except.error
          "FHIRfly requires either an apiKey or clientId+clientSecret. Get credentials at https://fhirfly.io/dashboard") := by
  refine ⟨?_, ?_, ?_⟩
  · intro k hk hke
    simp [fhirflyNew, jsTruthy, hk, hke]
  · intro cid cs hak hcid hcide hcs hcse
    have h1 : jsTruthy cfg.clientId = true := by simp [jsTruthy, hcid, hcide]
    have h2 : jsTruthy cfg.clientSecret = true := by simp [jsTruthy, hcs, hcse]
    simp [fhirflyNew, hak, h1, h2, hcid, hcs]
    simp [jsTruthy, hcide, hcse]
  · intro hak hrest
    rcases hrest with h | h <;> simp [fhirflyNew, hak, h]

/-- Witness for `c2_construction` at concrete configurations. -/
theorem c2_construction_witness :
    fhirflyNew (FhirflyConfig.mk (some "k") none none none none none) =
      Except.ok (ClientAuth.apiKeyMode "k") ∧
    fhirflyNew (FhirflyConfig.mk none (some "c") (some "s") none none none) =
      Except.ok (ClientAuth.oauthMode "c" "s" "https://api.fhirfly.io/oauth2/token"
        none) ∧
    fhirflyNew (FhirflyConfig.mk none none none none none none) =
      Except.error
        "FHIRfly requires either an apiKey or clientId+clientSecret. Get credentials at https://fhirfly.io/dashboard" := by
  refine ⟨?_, ?_, ?_⟩
  · exact (c2_construction (FhirflyConfig.mk (some "k") none none none none none)).1
      "k" rfl (by decide)
  · exact (c2_construction (FhirflyConfig.mk none (some "c") (some "s")
      none none none)).2.1 "c" "s" rfl rfl (by decide) rfl (by decide)
  · exact (c2_construction (FhirflyConfig.mk none none none none none none)).2.2
      rfl (Or.inl rfl)

/-- Claim C10: when the token endpoint reports `expires_in ≤ 60`
seconds, the stored safety-margined expiry `now + (expires_in - 60) *
1000` is not after the settlement time, so every later `getToken()`
call bypasses the cache and starts a fresh exchange. -/
theorem c10_short_expiry (st : TMState) (now now2 : Int) (tok : String)
    (expIn : Int) (h1 : expIn ≤ 60) (h2 : now ≤ now2) :
    (fetchSettle st now (Except.ok (tok, expIn))).expiresAt ≤ now ∧
    (getTokenStep (fetchSettle st now (Except.ok (tok, expIn))) now2).1 =
      GetTokenAction.startFetch := by
  have hprod : (expIn - 60) * 1000 ≤ 0 := by
    have h60 : expIn - 60 ≤ 0 := by omega
    have := mul_le_mul_of_nonneg_right h60 (show (0 : Int) ≤ 1000 by norm_num)
    simpa using this
  have hexp : (fetchSettle st now (Except.ok (tok, expIn))).expiresAt =
      now + (expIn - 60) * 1000 := rfl
  constructor
  · rw [hexp]; linarith
  · have hlt : ¬(now2 < (fetchSettle st now (Except.ok (tok, expIn))).expiresAt) := by
      rw [hexp]; omega
    have hfl : (fetchSettle st now (Except.ok (tok, expIn))).refreshInFlight = false :=
      rfl
    unfold getTokenStep
    rw [if_neg (fun hc => hlt hc.2), if_neg (by simp [hfl])]

/-- While a refresh is in flight and the cache is stale, every further
`getToken()` call awaits the existing promise and leaves the state
unchanged. -/
theorem concurrentCalls_waiting (now : Int) : ∀ (n : Nat) (st : TMState),
    st.refreshInFlight = true →
    (tokenTruthy st.accessToken = false ∨ st.expiresAt ≤ now) →
    concurrentCalls st now n = (List.replicate n GetTokenAction.awaitExisting, st) := by
  intro n
  induction n with
  | zero => intro st h1 h2; rfl
  | succ n ih =>
      intro st h1 h2
      have hstep : getTokenStep st now = (GetTokenAction.awaitExisting, st) := by
        unfold getTokenStep
        rw [if_neg, if_pos h1]
        rcases h2 with h | h
        · exact fun hc => by rw [h] at hc; exact Bool.false_ne_true hc.1
        · exact fun hc => absurd hc.2 (not_lt.mpr h)
      simp [concurrentCalls, hstep, ih st h1 h2, List.replicate_succ]

/-- No caller issues a token-endpoint call while waiting. -/
theorem countStartFetch_replicate_await (n : Nat) :
    countStartFetch (List.replicate n GetTokenAction.awaitExisting) = 0 := by
  simp [countStartFetch]

/-- Claim C3: with a truthy cached token before its safety-margined
expiry, `getToken()` returns it with no state change and no network
call; N calls arriving before the exchange settles perform exactly one
network call (the first caller starts the fetch, all others await the
same promise) and all receive the identical settlement; and settling
the exchange clears the in-flight marker regardless of outcome. -/
theorem c3_token_coalescing (st : TMState) (now : Int) :
    (∀ t : String, st.accessToken = some t → ¬t = "" → now < st.expiresAt →
        getTokenStep st now = (GetTokenAction.cachedHit t, st)) ∧
    (∀ n : Nat, st.refreshInFlight = false →
        (tokenTruthy st.accessToken = false ∨ st.expiresAt ≤ now) →
        (concurrentCalls st now (n + 1)).1 =
          GetTokenAction.startFetch :: List.replicate n GetTokenAction.awaitExisting ∧
        countStartFetch (concurrentCalls st now (n + 1)).1 = 1 ∧
        ∀ r : Except Nat String,
          ((concurrentCalls st now (n + 1)).1).map (fun a => callerResult a r) =
            List.replicate (n + 1) r) ∧
    (∀ res : Except Nat (String × Int),
        (fetchSettle st now res).refreshInFlight = false) := by
  refine ⟨?_, ?_, ?_⟩
  · intro t ht hte hnow
    have htt : tokenTruthy st.accessToken = true := by simp [tokenTruthy, ht, hte]
    unfold getTokenStep
    rw [if_pos ⟨htt, hnow⟩, ht]
    rfl
  · intro n hfl hstale
    have hstep : getTokenStep st now =
        (GetTokenAction.startFetch, TMState.mk st.accessToken st.expiresAt true) := by
      unfold getTokenStep
      rw [if_neg, if_neg (by simp [hfl])]
      rcases hstale with h | h
      · exact fun hc => by rw [h] at hc; exact Bool.false_ne_true hc.1
      · exact fun hc => absurd hc.2 (not_lt.mpr h)
    have hwait := concurrentCalls_waiting now n
      (TMState.mk st.accessToken st.expiresAt true) rfl hstale
    have hlist : (concurrentCalls st now (n + 1)).1 =
        GetTokenAction.startFetch :: List.replicate n GetTokenAction.awaitExisting := by
      simp [concurrentCalls, hstep, hwait]
    refine ⟨hlist, ?_, ?_⟩
    · rw [hlist]
      simp [countStartFetch]
    · intro r
      rw [hlist]
      simp [callerResult, List.map_replicate, List.replicate_succ]
  · intro res
    cases res <;> rfl

/-- Witness for `c3_token_coalescing`: three concurrent calls from the
initial state, and settlement of a failed exchange. -/
theorem c3_token_coalescing_witness :
    (concurrentCalls (TMState.mk none 0 false) 0 3).1 =
      GetTokenAction.startFetch :: List.replicate 2 GetTokenAction.awaitExisting ∧
    (fetchSettle (TMState.mk none 0 false) 0 (Except.error 500)).refreshInFlight =
      false := by
  have h := c3_token_coalescing (TMState.mk none 0 false) 0
  exact ⟨(h.2.1 2 rfl (Or.inl rfl)).1, h.2.2 (Except.error 500)⟩

/-- A first 401 under OAuth invalidates the token and re-issues the
logical call with the 401-retry flag consumed and the loop counter
reset. -/
theorem requestAux_401_fresh (cfg : Config) (h : cfg.authIsOAuth = true)
    (att : Nat) (ra lim rem rst : Option Nat) (code : Option String)
    (rest : List NetResult) :
    requestAux cfg false att (NetResult.response 401 ra lim rem rst code :: rest) =
      ((requestAux cfg true 0 rest).1,
       Trace.mk ((requestAux cfg true 0 rest).2.attempts + 1)
         (requestAux cfg true 0 rest).2.sleeps
         ((requestAux cfg true 0 rest).2.invalidates + 1)) := by
  simp [requestAux, h]

/-- A 401 once the 401-retry flag is consumed fails immediately with an
`AuthenticationError`, issuing no further attempt. -/
theorem requestAux_401_spent (cfg : Config) (att : Nat)
    (ra lim rem rst : Option Nat) (code : Option String) (rest : List NetResult) :
    requestAux cfg true att (NetResult.response 401 ra lim rem rst code :: rest) =
      (ReqOutcome.failure ReqError.authentication, Trace.mk 1 [] 0) := by
  simp [requestAux, parseErrorResponse]

/-- Attempt-count and invalidate-count bound for the retry loop: each
phase issues at most `maxRetries + 1 - attempt` attempts, with one
extra phase (and one `invalidate`) available while the 401-retry flag
is unset. -/
theorem requestAux_bound (cfg : Config) : ∀ (script : List NetResult)
    (flag : Bool) (att : Nat),
    (requestAux cfg flag att script).2.attempts ≤
      (cfg.maxRetries + 1 - min att cfg.maxRetries) +
        (if flag = false then cfg.maxRetries + 1 else 0) ∧
    (requestAux cfg flag att script).2.invalidates ≤
      (if flag = false then 1 else 0) := by
  intro script
  induction script with
  | nil =>
      intro flag att
      constructor <;> simp [requestAux]
  | cons head rest ih =>
      intro flag att
      cases head with
      | abortErr =>
          constructor <;> simp [requestAux] <;> omega
      | netErr =>
          by_cases hatt : att < cfg.maxRetries
          · have := ih flag (att + 1)
            constructor <;> simp [requestAux, hatt] <;> omega
          · constructor <;> simp [requestAux, hatt] <;> omega
      | response status ra lim rem rst code =>
          by_cases h2xx : 200 ≤ status ∧ status < 300
          · constructor <;> simp [requestAux, h2xx] <;> omega
          · by_cases h401 : status = 401 ∧ cfg.authIsOAuth = true ∧ flag = false
            · have hin := ih true 0
              simp only [if_neg (by simp : ¬(true = false))] at hin
              rcases h401 with ⟨hs, ho, hf⟩
              subst hs; subst hf
              constructor <;> simp [requestAux, h2xx, ho] <;> omega
            · by_cases h4xx : status < 500 ∧ status ≠ 429
              · constructor <;> simp [requestAux, h2xx, h401, h4xx] <;> omega
              · by_cases h429 : status = 429
                · cases ra with
                  | none =>
                      constructor <;> simp [requestAux, h2xx, h401, h4xx, h429] <;>
                        omega
                  | some secs =>
                      by_cases hatt : att < cfg.maxRetries
                      · have := ih flag (att + 1)
                        constructor <;>
                          simp [requestAux, h2xx, h401, h4xx, h429, hatt] <;> omega
                      · constructor <;>
                          simp [requestAux, h2xx, h401, h4xx, h429, hatt] <;> omega
                · have hlt : ¬ status < 500 := by omega
                  by_cases hatt : att < cfg.maxRetries
                  · have := ih flag (att + 1)
                    constructor <;>
                      simp [requestAux, h2xx, h401, h429, hlt, hatt] <;> omega
                  · constructor <;>
                      simp [requestAux, h2xx, h401, h429, hlt, hatt] <;> omega

/-- Claim C1 as amended: under OAuth a first 401 invalidates the cached
token and re-issues the logical call exactly once with the 401-retry
flag consumed; a 401 on the re-issued call fails immediately with
`AuthenticationError` and no third attempt; and the reauthentication
retry, rather than preserving the ordinary retry budget, resets it —
the re-issued call gets a fresh budget, so a single logical call issues
at most `2 * maxRetries + 2` network attempts (at most `maxRetries`
ordinary retries before the 401 and at most `maxRetries` after) and at
most one `invalidate`. -/
theorem c1_reauth_retry (cfg : Config) (h : cfg.authIsOAuth = true) :
    (∀ (att : Nat) (ra lim rem rst : Option Nat) (code : Option String)
        (rest : List NetResult),
        requestAux cfg false att (NetResult.response 401 ra lim rem rst code :: rest) =
          ((requestAux cfg true 0 rest).1,
           Trace.mk ((requestAux cfg true 0 rest).2.attempts + 1)
             (requestAux cfg true 0 rest).2.sleeps
             ((requestAux cfg true 0 rest).2.invalidates + 1))) ∧
    (∀ (att : Nat) (ra lim rem rst : Option Nat) (code : Option String)
        (rest : List NetResult),
        requestAux cfg true att (NetResult.response 401 ra lim rem rst code :: rest) =
          (ReqOutcome.failure ReqError.authentication, Trace.mk 1 [] 0)) ∧
    (∀ script : List NetResult,
        (requestAux cfg false 0 script).2.attempts ≤ 2 * cfg.maxRetries + 2 ∧
        (requestAux cfg false 0 script).2.invalidates ≤ 1) := by
  refine ⟨?_, ?_, ?_⟩
  · intro att ra lim rem rst code rest
    exact requestAux_401_fresh cfg h att ra lim rem rst code rest
  · intro att ra lim rem rst code rest
    exact requestAux_401_spent cfg att ra lim rem rst code rest
  · intro script
    have hb := requestAux_bound cfg script false 0
    have h0 : min 0 cfg.maxRetries = 0 := min_eq_left (Nat.zero_le _)
    rw [h0] at hb
    simp at hb
    omega

/-- Witness for `c1_reauth_retry` at a concrete configuration. -/
theorem c1_reauth_retry_witness :
    requestAux (Config.mk 3 1000 30000 true) true 0
        [NetResult.response 401 none none none none none] =
      (ReqOutcome.failure ReqError.authentication, Trace.mk 1 [] 0) ∧
    (requestAux (Config.mk 3 1000 30000 true) false 0 []).2.attempts ≤ 2 * 3 + 2 := by
  have h := c1_reauth_retry (Config.mk 3 1000 30000 true) rfl
  exact ⟨h.2.1 0 none none none none none [], (h.2.2 []).1⟩

/-- Claim C1, counterexample: with `maxRetries = 1` and responses
500, 401, 500, 500 the logical call issues four network attempts and
two ordinary backoff sleeps — more than the claimed budget of one
reauth retry plus at most `maxRetries` ordinary retries (three attempts
total). -/
theorem c1_budget_counterexample :
    requestAux (Config.mk 1 1000 30000 true) false 0
        [NetResult.response 500 none none none none none,
         NetResult.response 401 none none none none none,
         NetResult.response 500 none none none none none,
         NetResult.response 500 none none none none none] =
      (ReqOutcome.failure (ReqError.server 500), Trace.mk 4 [1000, 1000] 1) ∧
    4 > (Config.mk 1 1000 30000 true).maxRetries + 2 ∧
    [1000, 1000].length > (Config.mk 1 1000 30000 true).maxRetries := by
  decide

/-- One 5xx attempt with budget remaining: sleep the exponential
backoff `retryDelay * 2 ^ attempt` and retry. -/
theorem requestAux_5xx_retry (cfg : Config) (flag : Bool) (att s : Nat)
    (h500 : 500 ≤ s) (hatt : att < cfg.maxRetries)
    (ra lim rem rst : Option Nat) (code : Option String) (rest : List NetResult) :
    requestAux cfg flag att (NetResult.response s ra lim rem rst code :: rest) =
      ((requestAux cfg flag (att + 1) rest).1,
       Trace.mk ((requestAux cfg flag (att + 1) rest).2.attempts + 1)
         (cfg.retryDelay * 2 ^ att :: (requestAux cfg flag (att + 1) rest).2.sleeps)
         ((requestAux cfg flag (att + 1) rest).2.invalidates)) := by
  have h2xx : ¬(200 ≤ s ∧ s < 300) := by omega
  have h401 : ¬(s = 401 ∧ cfg.authIsOAuth = true ∧ flag = false) := by
    rintro ⟨hs, -, -⟩; omega
  have hlt : ¬ s < 500 := by omega
  have h429 : ¬ s = 429 := by omega
  simp [requestAux, h2xx, h401, hlt, h429, hatt]

/-- One 5xx attempt with the budget exhausted: fail with `ServerError`
carrying the status. -/
theorem requestAux_5xx_exhausted (cfg : Config) (flag : Bool) (att s : Nat)
    (h500 : 500 ≤ s) (hatt : ¬ att < cfg.maxRetries)
    (ra lim rem rst : Option Nat) (code : Option String) (rest : List NetResult) :
    requestAux cfg flag att (NetResult.response s ra lim rem rst code :: rest) =
      (ReqOutcome.failure (ReqError.server s), Trace.mk 1 [] 0) := by
  have h2xx : ¬(200 ≤ s ∧ s < 300) := by omega
  have h401 : ¬(s = 401 ∧ cfg.authIsOAuth = true ∧ flag = false) := by
    rintro ⟨hs, -, -⟩; omega
  have hlt : ¬ s < 500 := by omega
  have h429 : ¬ s = 429 := by omega
  have hparse : parseErrorResponse s ra lim rem rst code = ReqError.server s := by
    unfold parseErrorResponse
    rw [if_neg (by omega), if_neg (by omega), if_neg (by omega), if_neg (by omega),
      if_pos h500]
  simp [requestAux, h2xx, h401, hlt, h429, hatt, hparse]

/-- A run of all-5xx responses exhausting the budget: one sleep of
`retryDelay * 2 ^ n` before each retry, then a `ServerError`. -/
theorem requestAux_server_run (cfg : Config) (flag : Bool) (s : Nat)
    (h500 : 500 ≤ s) : ∀ (k att : Nat), att + k = cfg.maxRetries →
    requestAux cfg flag att
        (List.replicate (k + 1) (NetResult.response s none none none none none)) =
      (ReqOutcome.failure (ReqError.server s),
       Trace.mk (k + 1) ((List.range k).map (fun i => cfg.retryDelay * 2 ^ (att + i)))
         0) := by
  intro k
  induction k with
  | zero =>
      intro att hatt
      rw [List.replicate_one]
      simpa using requestAux_5xx_exhausted cfg flag att s h500 (by omega)
        none none none none none []
  | succ k ih =>
      intro att hatt
      rw [List.replicate_succ,
        requestAux_5xx_retry cfg flag att s h500 (by omega) none none none none none _,
        ih (att + 1) (by omega)]
      refine Prod.ext rfl (congrArg₂ (Trace.mk (k + 1 + 1)) ?_ rfl)
      rw [List.range_succ_eq_map, List.map_cons, List.map_map]
      refine congrArg₂ List.cons (by ring) ?_
      refine List.map_congr_left ?_
      intro i hi
      simp only [Function.comp]
      have hidx : att + 1 + i = att + i.succ := by omega
      rw [hidx]

/-- Claim C5: a logical call answered with status `s ≥ 500` on every
attempt sleeps `retryDelay * 2 ^ (n - 1)` milliseconds before the n-th
retry for n = 1..maxRetries, issues exactly `maxRetries + 1` network
attempts, and fails with a `ServerError` carrying the status. -/
theorem c5_exponential_backoff (cfg : Config) (flag : Bool) (s : Nat)
    (h500 : 500 ≤ s) :
    requestAux cfg flag 0
        (List.replicate (cfg.maxRetries + 1)
          (NetResult.response s none none none none none)) =
      (ReqOutcome.failure (ReqError.server s),
       Trace.mk (cfg.maxRetries + 1)
         ((List.range cfg.maxRetries).map (fun n => cfg.retryDelay * 2 ^ n)) 0) := by
  have h := requestAux_server_run cfg flag s h500 cfg.maxRetries 0 (by omega)
  simpa using h

/-- Witness for `c5_exponential_backoff`: `maxRetries = 3`,
`retryDelay = 1000`, a 500 on all four attempts, sleeps 1000, 2000,
4000 ms. -/
theorem c5_exponential_backoff_witness :
    requestAux (Config.mk 3 1000 30000 false) false 0
        (List.replicate 4 (NetResult.response 500 none none none none none)) =
      (ReqOutcome.failure (ReqError.server 500),
       Trace.mk 4 [1000, 2000, 4000] 0) := by
  have h := c5_exponential_backoff (Config.mk 3 1000 30000 false) false 500
    (by norm_num)
  exact h.trans (by decide)

/-- Claim C6: a 429 whose `retry-after` header is present while the
attempt counter is below the retry limit sleeps the server-supplied
number of seconds (not the exponential schedule) and retries, counting
toward the attempt limit; a 429 with no header, or one arriving with
the limit reached, fails with `QuotaExceededError` when the body
discriminator flags quota and otherwise with a `RateLimitError` whose
`retryAfter` equals the header value (e.g. `retry-after: 60` yields
`retryAfter = 60`, absent header yields no value). -/
theorem c6_rate_limit (cfg : Config) (flag : Bool) (att secs : Nat)
    (lim rem rst : Option Nat) (code : Option String) (rest : List NetResult) :
    (att < cfg.maxRetries →
        requestAux cfg flag att
            (NetResult.response 429 (some secs) lim rem rst code :: rest) =
          ((requestAux cfg flag (att + 1) rest).1,
           Trace.mk ((requestAux cfg flag (att + 1) rest).2.attempts + 1)
             (secs * 1000 :: (requestAux cfg flag (att + 1) rest).2.sleeps)
             ((requestAux cfg flag (att + 1) rest).2.invalidates))) ∧
    (¬ att < cfg.maxRetries →
        requestAux cfg flag att
            (NetResult.response 429 (some secs) lim rem rst code :: rest) =
          (ReqOutcome.failure
            (if code = some "QUOTA_EXCEEDED" then ReqError.quotaExceeded
             else ReqError.rateLimit (some secs) lim rem rst),
           Trace.mk 1 [] 0)) ∧
    (requestAux cfg flag att (NetResult.response 429 none lim rem rst code :: rest) =
        (ReqOutcome.failure
          (if code = some "QUOTA_EXCEEDED" then ReqError.quotaExceeded
           else ReqError.rateLimit none lim rem rst),
         Trace.mk 1 [] 0)) := by
  refine ⟨?_, ?_, ?_⟩
  · intro hatt
    simp [requestAux, hatt]
  · intro hatt
    simp [requestAux, hatt, parseErrorResponse]
  · simp [requestAux, parseErrorResponse]

/-- Witness for `c6_rate_limit`: `retry-after: 60` with the budget
exhausted yields `RateLimitError` with `retryAfter = 60`; with budget
remaining the call sleeps 60000 ms and retries. -/
theorem c6_rate_limit_witness :
    requestAux (Config.mk 3 1000 30000 false) false 3
        [NetResult.response 429 (some 60) none none none none] =
      (ReqOutcome.failure (ReqError.rateLimit (some 60) none none none),
       Trace.mk 1 [] 0) ∧
    requestAux (Config.mk 3 1000 30000 false) false 0
        [NetResult.response 429 (some 60) none none none none] =
      (ReqOutcome.failure ReqError.network, Trace.mk 1 [60000] 0) := by
  constructor
  · have h := (c6_rate_limit (Config.mk 3 1000 30000 false) false 3 60
      none none none none []).2.1 (by norm_num)
    exact h.trans (by decide)
  · have h := (c6_rate_limit (Config.mk 3 1000 30000 false) false 0 60
      none none none none []).1 (by norm_num)
    exact h.trans (by decide)

/-- The map `parseErrorResponse` lands in the closed eight-kind taxonomy except
on statuses outside {400, 401, 404, 429} below 500, where it throws
the base `ApiError` carrying the status. -/
theorem parseErrorResponse_taxonomy (status : Nat) (ra lim rem rst : Option Nat)
    (code : Option String) :
    specClosedTaxonomy (parseErrorResponse status ra lim rem rst code) = true ∨
    (parseErrorResponse status ra lim rem rst code = ReqError.api status ∧
      status < 500 ∧ status ≠ 400 ∧ status ≠ 401 ∧ status ≠ 404 ∧ status ≠ 429) := by
  unfold parseErrorResponse
  split_ifs with h1 h2 h3 h4 h5 h6 <;>
    first
      | exact Or.inl rfl
      | exact Or.inr ⟨rfl, by omega, h3, h1, h2, h4⟩

/-- Claim C4 as amended: the retry loop resolves only on 2xx statuses
(no sentinel values), and every failure is one of the eight kinds of
the closed taxonomy or the structured base `ApiError`, the latter
exactly for non-2xx statuses below 500 outside {400, 401, 404, 429}
(such as 403 or 409). -/
theorem c4_error_taxonomy : ∀ (script : List NetResult) (cfg : Config)
    (flag : Bool) (att : Nat),
    (∀ s, (requestAux cfg flag att script).1 = ReqOutcome.success s →
        200 ≤ s ∧ s < 300) ∧
    (∀ e, (requestAux cfg flag att script).1 = ReqOutcome.failure e →
        specClosedTaxonomy e = true ∨
        ∃ s, e = ReqError.api s ∧ ¬(200 ≤ s ∧ s < 300) ∧ s < 500 ∧
          s ≠ 400 ∧ s ≠ 401 ∧ s ≠ 404 ∧ s ≠ 429) := by
  intro script
  induction script with
  | nil =>
      intro cfg flag att
      constructor
      · intro s hs; exact absurd hs (by simp [requestAux])
      · intro e he
        have : e = ReqError.network := by
          simpa [requestAux] using he.symm
        subst this
        exact Or.inl rfl
  | cons head rest ih =>
      intro cfg flag att
      cases head with
      | abortErr =>
          constructor
          · intro s hs; exact absurd hs (by simp [requestAux])
          · intro e he
            have : e = ReqError.timeout cfg.timeout := by
              simpa [requestAux] using he.symm
            subst this
            exact Or.inl rfl
      | netErr =>
          by_cases hatt : att < cfg.maxRetries
          · have := ih cfg flag (att + 1)
            constructor
            · intro s hs
              exact this.1 s (by simpa [requestAux, hatt] using hs)
            · intro e he
              exact this.2 e (by simpa [requestAux, hatt] using he)
          · constructor
            · intro s hs; exact absurd hs (by simp [requestAux, hatt])
            · intro e he
              have : e = ReqError.network := by
                simpa [requestAux, hatt] using he.symm
              subst this
              exact Or.inl rfl
      | response status ra lim rem rst code =>
          by_cases h2xx : 200 ≤ status ∧ status < 300
          · constructor
            · intro s hs
              have : status = s := by simpa [requestAux, h2xx] using hs
              omega
            · intro e he; exact absurd he (by simp [requestAux, h2xx])
          · by_cases h401 : status = 401 ∧ cfg.authIsOAuth = true ∧ flag = false
            · have hnext := ih cfg true 0
              rcases h401 with ⟨hs, ho, hf⟩
              subst hs; subst hf
              constructor
              · intro s hsucc
                exact hnext.1 s (by simpa [requestAux, h2xx, ho] using hsucc)
              · intro e he
                exact hnext.2 e (by simpa [requestAux, h2xx, ho] using he)
            · have hterm : ∀ (he : parseErrorResponse status ra lim rem rst code =
                  parseErrorResponse status ra lim rem rst code),
                  specClosedTaxonomy (parseErrorResponse status ra lim rem rst code) =
                      true ∨
                  ∃ s, parseErrorResponse status ra lim rem rst code =
                      ReqError.api s ∧ ¬(200 ≤ s ∧ s < 300) ∧ s < 500 ∧
                    s ≠ 400 ∧ s ≠ 401 ∧ s ≠ 404 ∧ s ≠ 429 := by
                intro _
                rcases parseErrorResponse_taxonomy status ra lim rem rst code with
                  h | ⟨hep, hlt, h400, h401x, h404, h429⟩
                · exact Or.inl h
                · exact Or.inr ⟨status, hep, h2xx, hlt, h400, h401x, h404, h429⟩
              by_cases h4xx : status < 500 ∧ status ≠ 429
              · constructor
                · intro s hs
                  exact absurd hs (by simp [requestAux, h2xx, h401, h4xx])
                · intro e he
                  have : e = parseErrorResponse status ra lim rem rst code := by
                    simpa [requestAux, h2xx, h401, h4xx] using he.symm
                  subst this
                  exact hterm rfl
              · by_cases h429 : status = 429
                · cases ra with
                  | none =>
                      constructor
                      · intro s hs
                        exact absurd hs (by simp [requestAux, h2xx, h401, h4xx, h429])
                      · intro e he
                        have : e = parseErrorResponse status none lim rem rst code := by
                          simpa [requestAux, h2xx, h401, h4xx, h429] using he.symm
                        subst this
                        exact hterm rfl
                  | some secs =>
                      by_cases hatt : att < cfg.maxRetries
                      · have := ih cfg flag (att + 1)
                        constructor
                        · intro s hs
                          exact this.1 s
                            (by simpa [requestAux, h2xx, h401, h4xx, h429, hatt]
                              using hs)
                        · intro e he
                          exact this.2 e
                            (by simpa [requestAux, h2xx, h401, h4xx, h429, hatt]
                              using he)
                      · constructor
                        · intro s hs
                          exact absurd hs
                            (by simp [requestAux, h2xx, h401, h4xx, h429, hatt])
                        · intro e he
                          have : e =
                              parseErrorResponse status (some secs) lim rem rst code := by
                            simpa [requestAux, h2xx, h401, h4xx, h429, hatt]
                              using he.symm
                          subst this
                          exact hterm rfl
                · have hlt : ¬ status < 500 := by omega
                  by_cases hatt : att < cfg.maxRetries
                  · have := ih cfg flag (att + 1)
                    constructor
                    · intro s hs
                      exact this.1 s
                        (by simpa [requestAux, h2xx, h401, h429, hlt, hatt] using hs)
                    · intro e he
                      exact this.2 e
                        (by simpa [requestAux, h2xx, h401, h429, hlt, hatt] using he)
                  · constructor
                    · intro s hs
                      exact absurd hs
                        (by simp [requestAux, h2xx, h401, h429, hlt, hatt])
                    · intro e he
                      have : e = parseErrorResponse status ra lim rem rst code := by
                        simpa [requestAux, h2xx, h401, h429, hlt, hatt] using he.symm
                      subst this
                      exact hterm rfl

/-- Claim C4, counterexample: a 403 response raises the base
`ApiError`, which is none of the eight kinds of the closed taxonomy. -/
theorem c4_api_error_counterexample :
    (requestAux (Config.mk 3 1000 30000 false) false 0
        [NetResult.response 403 none none none none none]).1 =
      ReqOutcome.failure (ReqError.api 403) ∧
    specClosedTaxonomy (ReqError.api 403) = false := by decide

/-- Witness for `c4_error_taxonomy` at a 404 response. -/
theorem c4_error_taxonomy_witness :
    specClosedTaxonomy ReqError.notFound = true ∨
    ∃ s, ReqError.notFound = ReqError.api s ∧ ¬(200 ≤ s ∧ s < 300) ∧ s < 500 ∧
      s ≠ 400 ∧ s ≠ 401 ∧ s ≠ 404 ∧ s ≠ 429 :=
  (c4_error_taxonomy [NetResult.response 404 none none none none none]
    (Config.mk 3 1000 30000 false) false 0).2 ReqError.notFound rfl

/-- Applying `URLSearchParams.set` with a key absent from the accumulator
appends the pair. -/
theorem spSet_fresh (acc : List (String × String)) (k v : String)
    (h : ∀ p ∈ acc, p.1 ≠ k) : spSet acc k v = acc ++ [(k, v)] := by
  induction acc with
  | nil => rfl
  | cons p rest ih =>
      have hp : p.1 ≠ k := h p (List.mem_cons_self p rest)
      have hrest : ∀ q ∈ rest, q.1 ≠ k := fun q hq => h q (List.mem_cons_of_mem p hq)
      simp [spSet, hp, ih hrest]

/-- One loop iteration of `buildSearchQueryString` on a fresh key
appends exactly the spec-side stringification of the value. -/
theorem searchStep_fresh (acc : List (String × String)) (k : String) (v : JsValue)
    (h : ∀ p ∈ acc, p.1 ≠ k) :
    searchStep acc (k, v) =
      acc ++ (((specStringify v).map (fun s => (k, s))).toList) := by
  cases v with
  | undef => simp [searchStep, specStringify]
  | nullv => simp [searchStep, specStringify]
  | boolv b => simp [searchStep, specStringify, spSet_fresh acc k _ h]
  | numv n => simp [searchStep, specStringify, spSet_fresh acc k _ h]
  | strv str =>
      by_cases hs : 0 < str.length
      · simp [searchStep, specStringify, hs, spSet_fresh acc k _ h]
      · simp [searchStep, specStringify, hs]
  | arrv xs =>
      by_cases hx : 0 < xs.length
      · simp [searchStep, specStringify, hx, spSet_fresh acc k _ h]
      · simp [searchStep, specStringify, hx]

/-- Folding the entry loop over keys that are pairwise distinct and
fresh for the accumulator appends the spec-side entry list. -/
theorem foldl_searchStep (params : List (String × JsValue)) : ∀
    (acc : List (String × String)),
    (params.map Prod.fst).Nodup →
    (∀ kv ∈ params, ∀ p ∈ acc, p.1 ≠ kv.1) →
    params.foldl searchStep acc =
      acc ++ params.filterMap
        (fun kv => (specStringify kv.2).map (fun s => (kv.1, s))) := by
  induction params with
  | nil => intro acc h1 h2; simp
  | cons kv rest ih =>
      intro acc h1 h2
      have hfresh : ∀ p ∈ acc, p.1 ≠ kv.1 :=
        h2 kv (List.mem_cons_self kv rest)
      have h1c : (kv.1 :: rest.map Prod.fst).Nodup := by simpa using h1
      have hhead : kv.1 ∉ rest.map Prod.fst := (List.nodup_cons.mp h1c).1
      have h1r : (rest.map Prod.fst).Nodup := (List.nodup_cons.mp h1c).2
      have h2r : ∀ kv2 ∈ rest, ∀ p ∈
          acc ++ (((specStringify kv.2).map (fun s => (kv.1, s))).toList), p.1 ≠ kv2.1 := by
        intro kv2 hkv2 p hp
        rcases List.mem_append.mp hp with hpa | hpn
        · exact h2 kv2 (List.mem_cons_of_mem kv hkv2) p hpa
        · have hp1 : p.1 = kv.1 := by
            cases hspec : specStringify kv.2 with
            | none => rw [hspec] at hpn; simp at hpn
            | some str =>
                rw [hspec] at hpn
                simp at hpn
                rw [hpn]
          rw [hp1]
          intro hcontra
          exact hhead (by
            rw [hcontra]
            exact List.mem_map_of_mem Prod.fst hkv2)
      calc (kv :: rest).foldl searchStep acc
          = rest.foldl searchStep (searchStep acc kv) := by rw [List.foldl_cons]
        _ = rest.foldl searchStep
              (acc ++ (((specStringify kv.2).map (fun s => (kv.1, s))).toList)) := by
            rw [searchStep_fresh acc kv.1 kv.2 hfresh]
        _ = acc ++ (((specStringify kv.2).map (fun s => (kv.1, s))).toList) ++
              rest.filterMap
                (fun kv2 => (specStringify kv2.2).map (fun s => (kv2.1, s))) := by
            rw [ih _ h1r h2r]
        _ = acc ++ (kv :: rest).filterMap
              (fun kv2 => (specStringify kv2.2).map (fun s => (kv2.1, s))) := by
            rw [List.filterMap_cons]
            cases hspec : specStringify kv.2 with
            | none => simp [hspec]
            | some str => simp [hspec]

/-- Claim C8: for search-parameter maps with pairwise-distinct keys the
built query string equals the spec-side rendering — `undefined`/`null`
omitted, booleans and numbers stringified (including `0` and `false`),
empty strings and empty arrays omitted, non-empty arrays joined with
commas, key order following the insertion order of the map — and on
the concrete map `(q: "test", ingredient: undefined, limit: 50,
is_active: true)` the result is `?q=test&limit=50&is_active=true`,
which contains `q=test`, `limit=50` and `is_active=true` and contains
neither `ingredient=` nor any `undefined` token. -/
theorem c8_search_query_string :
    (∀ params : List (String × JsValue), (params.map Prod.fst).Nodup →
        buildSearchQueryString params = specSearchQuery params) ∧
    buildSearchQueryString searchExample = "?q=test&limit=50&is_active=true" ∧
    containsSeq "q=test".toList (buildSearchQueryString searchExample).toList = true ∧
    containsSeq "limit=50".toList
      (buildSearchQueryString searchExample).toList = true ∧
    containsSeq "is_active=true".toList
      (buildSearchQueryString searchExample).toList = true ∧
    containsSeq "ingredient=".toList
      (buildSearchQueryString searchExample).toList = false ∧
    containsSeq "undefined".toList
      (buildSearchQueryString searchExample).toList = false := by
  refine ⟨?_, by decide, by decide, by decide, by decide, by decide, by decide⟩
  intro params hnd
  unfold buildSearchQueryString specSearchQuery
  rw [foldl_searchStep params [] hnd (by simp)]
  simp

/-- Witness for `c8_search_query_string` on the concrete map of the
claim (whose keys are pairwise distinct). -/
theorem c8_search_query_string_witness :
    buildSearchQueryString searchExample = specSearchQuery searchExample :=
  c8_search_query_string.1 searchExample (by decide)

/-- Witness for `c10_short_expiry` with `expires_in = 30` seconds. -/
theorem c10_short_expiry_witness :
    (fetchSettle (TMState.mk none 0 false) 1000 (Except.ok ("tok", 30))).expiresAt ≤
      1000 ∧
    (getTokenStep (fetchSettle (TMState.mk none 0 false) 1000
        (Except.ok ("tok", 30))) 1000).1 = GetTokenAction.startFetch :=
  c10_short_expiry (TMState.mk none 0 false) 1000 1000 "tok" 30 (by norm_num)
    (le_refl 1000)

end FhirflySDK
